import Mathlib

/-!
Shallow embedding of the aperture HTTP gateway core (src/proxy/proxy.go)
together with the small collaborator interfaces it consumes.  Pure Go
functions become Lean functions; the `http.ResponseWriter` is modelled as
an accumulated header map plus a status code and body; the external
collaborators (authenticator, freebie database, regexp engine, file
system) are parameters of the model.
-/

namespace Aperture

/-- Go's `http.Header` is a `map[string][]string`.  We model it as an
association list with unique keys (all operations preserve uniqueness).
Go canonicalises header keys; every key used by the gateway is already
in canonical form, so canonicalisation is not modelled. -/
abbrev HeaderMap := List (String × List String)

/-- `http.Header.Values`-style lookup: all values stored under a key. -/
def hGet : HeaderMap → String → List String
  | [], _ => []
  | p :: rest, k => if p.1 == k then p.2 else hGet rest k

/-- `http.Header.Get`: the first value stored under a key, "" if none. -/
def hGetFirst (h : HeaderMap) (k : String) : String :=
  match hGet h k with
  | [] => ""
  | v :: _ => v

/-- `http.Header.Set`: replace all values of the key by the single value. -/
def hSet : HeaderMap → String → String → HeaderMap
  | [], k, v => [(k, [v])]
  | p :: rest, k, v =>
    if p.1 == k then (k, [v]) :: rest else p :: hSet rest k v

/-- `http.Header.Add`: append one value to the key's value list. -/
def hAdd : HeaderMap → String → String → HeaderMap
  | [], k, v => [(k, [v])]
  | p :: rest, k, v =>
    if p.1 == k then (p.1, p.2 ++ [v]) :: rest else p :: hAdd rest k v

@[simp] theorem hGet_nil (k : String) : hGet [] k = [] := rfl

@[simp] theorem hGet_hSet_self (h : HeaderMap) (k v : String) :
    hGet (hSet h k v) k = [v] := by
  induction h with
  | nil => simp [hSet, hGet]
  | cons p rest ih =>
    by_cases hp : p.1 = k
    · simp [hSet, hGet, hp]
    · simp only [hSet, hGet, beq_iff_eq, hp, if_false]
      exact ih

@[simp] theorem hGet_hSet_ne (h : HeaderMap) (k k' v : String)
    (hne : k' ≠ k) : hGet (hSet h k v) k' = hGet h k' := by
  induction h with
  | nil => simp [hSet, hGet, Ne.symm hne]
  | cons p rest ih =>
    by_cases hp : p.1 = k
    · simp only [hSet, hGet, beq_iff_eq, hp, if_true]
      simp [Ne.symm hne, hp]
    · simp only [hSet, hGet, beq_iff_eq, hp, if_false]
      by_cases hp' : p.1 = k'
      · simp [hGet, hp']
      · simp only [hGet, beq_iff_eq, hp', if_false]
        exact ih

@[simp] theorem hGet_hAdd_self (h : HeaderMap) (k v : String) :
    hGet (hAdd h k v) k = hGet h k ++ [v] := by
  induction h with
  | nil => simp [hAdd, hGet]
  | cons p rest ih =>
    by_cases hp : p.1 = k
    · simp [hAdd, hGet, hp]
    · simp only [hAdd, hGet, beq_iff_eq, hp, if_false]
      exact ih

@[simp] theorem hGet_hAdd_ne (h : HeaderMap) (k k' v : String)
    (hne : k' ≠ k) : hGet (hAdd h k v) k' = hGet h k' := by
  induction h with
  | nil => simp [hAdd, hGet, Ne.symm hne]
  | cons p rest ih =>
    by_cases hp : p.1 = k
    · simp only [hAdd, hGet, beq_iff_eq, hp, if_true]
      by_cases hp' : p.1 = k'
      · exact absurd (hp' ▸ hp) hne
      · simp [hGet, hp', hp ▸ hp']
    · simp only [hAdd, hGet, beq_iff_eq, hp, if_false]
      by_cases hp' : p.1 = k'
      · simp [hGet, hp']
      · simp only [hGet, beq_iff_eq, hp', if_false]
        exact ih

/-- Modelled from the spec: the three-way authorization level of
`auth.Level` (the `auth` package is not under src/) — `off` is the open
level, `on` requires payment, `freebie` is limited-free. -/
inductive Level where
  | off
  | on
  | freebie
deriving DecidableEq

/-- Modelled from the spec: `Level.IsOn` holds exactly for the paid level. -/
def Level.IsOn : Level → Bool
  | .on => true
  | _ => false

/-- Modelled from the spec: `Level.IsFreebie` holds exactly for the
limited-free level. -/
def Level.IsFreebie : Level → Bool
  | .freebie => true
  | _ => false

/-- The parts of Go's `*http.Request` the gateway reads: method, host,
URL path, header map, and the remote IP parsed from `RemoteAddr`. -/
structure Request where
  Method : String
  Host : String
  Path : String
  Header : HeaderMap
  RemoteIP : String

/-- Modelled from the spec: the freebie database collaborator
(`freebieDb` field of `Service`, defined outside src/) with its
`CanPass` and `TallyFreebie` operations, each fallible. -/
structure FreebieDb where
  CanPass : Request → String → Except String Bool
  TallyFreebie : Request → String → Except String Nat

/-- Modelled from the spec: the `auth.Authenticator` collaborator
(declared outside src/): credential validation plus fresh-challenge
header production, parameterized by service name and price. -/
structure Authenticator where
  accept : HeaderMap → String → Bool
  freshChallengeHeader : Request → String → Int → Except String HeaderMap

/-- Go's `regexp` package, abstracted: `compile` returns `none` exactly
on a syntactically invalid pattern, in which case `regexp.MustCompile`
panics in the source. -/
structure RegexEngine where
  compile : String → Option (String → Bool)

/-- The fields of `proxy.Service` (declared in service.go, outside src/)
that proxy.go reads.  `AuthRequired` is the per-request auth level
policy, `freebieDb` the quota tracker for limited-free resources. -/
structure Service where
  Name : String
  HostRegexp : String
  PathRegexp : String
  Address : String
  Protocol : String
  Price : Int
  Headers : List (String × String)
  TLSCertPath : String
  AuthRequired : Request → Level
  freebieDb : FreebieDb

/-- A direct (gateway-originated, non-proxied) HTTP response: status
code, response headers, and body (`none` for the bodiless gRPC
encoding).  The trailing newline `http.Error` appends via `Fprintln` is
elided; `body` is the message payload. -/
structure Response where
  status : Nat
  headers : HeaderMap
  body : Option String
deriving DecidableEq

/-- Result of `matchService`: either a normal result or a crash — the
source calls `regexp.MustCompile`, which panics on an invalid pattern;
`crashed` records the offending pattern. -/
inductive MatchRes (α : Type) where
  | crashed (pat : String)
  | ok (val : α)
deriving DecidableEq

/-- How the gateway disposed of a request: a direct response, a forward
to the matched backend service, dispatch to the static file server, or
a crash from `regexp.MustCompile`. -/
inductive Outcome where
  | direct (resp : Response)
  | forwarded (svc : Service)
  | static
  | crashed (pat : String)

/-- The observable result of `Proxy.ServeHTTP`: the outcome plus which
collaborator calls were performed while handling the request. -/
structure ServeResult where
  outcome : Outcome
  matchTried : Bool
  authCalled : Bool
  canPassCalled : Bool
  tallyCalled : Bool

def hdrContentType : String := "Content-Type"

def hdrTypeGrpc : String := "application/grpc"

/-- `google.golang.org/grpc/codes.Internal` is 13. -/
def codesInternal : Nat := 13

/-- Go's `strings.HasPrefix`, over the character lists of the two
strings. -/
def hasPrefixStr (s pre : String) : Bool := pre.data.isPrefixOf s.data

/-- addCorsHeaders (proxy.go): adds the four CORS header fields. -/
def addCorsHeaders (header : HeaderMap) : HeaderMap :=
  hAdd (hAdd (hAdd (hAdd header
    "Access-Control-Allow-Origin" "*")
    "Access-Control-Allow-Methods" "GET, POST, OPTIONS")
    "Access-Control-Expose-Headers" "WWW-Authenticate")
    "Access-Control-Allow-Headers"
    "Authorization, Grpc-Metadata-macaroon, WWW-Authenticate"

/-- sendDirectResponse (proxy.go): a gRPC client (request content type
with the gRPC prefix) gets `Grpc-Status`/`Grpc-Message` headers and no
body; a plain client gets a text body via `http.Error` (which sets
`Content-Type` and `X-Content-Type-Options`).  Both carry the given
status code. -/
def sendDirectResponse (reqHeader : HeaderMap) (w : HeaderMap)
    (statusCode : Nat) (errInfo : String) : Response :=
  if hasPrefixStr (hGetFirst reqHeader hdrContentType) hdrTypeGrpc then
    { status := statusCode,
      headers := hSet (hSet w "Grpc-Status" (toString codesInternal))
        "Grpc-Message" errInfo,
      body := none }
  else
    { status := statusCode,
      headers := hSet (hSet w hdrContentType "text/plain; charset=utf-8")
        "X-Content-Type-Options" "nosniff",
      body := some errInfo }

/-- The header-merge loop of handlePaymentRequired for one challenge
entry: `Set` the first value, `Add` the rest.  (On an entry with no
values the source's `value[0]` would panic; `http.Header` never stores
an empty value slice, so that case is mapped to a no-op.) -/
def mergeHeader (w : HeaderMap) (nv : String × List String) : HeaderMap :=
  match nv.2 with
  | [] => w
  | v0 :: rest => rest.foldl (fun a v => hAdd a nv.1 v) (hSet w nv.1 v0)

/-- The full challenge-header merge loop of handlePaymentRequired. -/
def mergeChallenge (w : HeaderMap) (ch : HeaderMap) : HeaderMap :=
  ch.foldl mergeHeader w

/-- handlePaymentRequired (proxy.go).  NOTE: the source calls
`addCorsHeaders(r.Header)` — it mutates the inbound request's headers,
not the response writer's — so the CORS fields never reach the response.
The fresh challenge headers are merged into the (empty) response-writer
header map, then a 402 is sent; a challenge-production error yields a
500 instead. -/
def handlePaymentRequired (auth : Authenticator) (req : Request)
    (serviceName : String) (servicePrice : Int) : Response :=
  let reqH := addCorsHeaders req.Header
  let req' : Request := { req with Header := reqH }
  match auth.freshChallengeHeader req' serviceName servicePrice with
  | .error _ => sendDirectResponse reqH [] 500 "challenge failure"
  | .ok ch =>
    sendDirectResponse reqH (mergeChallenge [] ch) 402 "payment required"

/-- matchService (proxy.go): walk the service list in order; compile the
host pattern (MustCompile: crash on invalid), skip on host mismatch;
empty path pattern matches any path, otherwise compile and test the
path pattern. -/
def matchService (eng : RegexEngine) (req : Request) :
    List Service → MatchRes (Option Service)
  | [] => .ok none
  | service :: rest =>
    match eng.compile service.HostRegexp with
    | none => .crashed service.HostRegexp
    | some hostMatch =>
      if !hostMatch req.Host then
        matchService eng req rest
      else if service.PathRegexp == "" then
        .ok (some service)
      else
        match eng.compile service.PathRegexp with
        | none => .crashed service.PathRegexp
        | some pathMatch =>
          if !pathMatch req.Path then
            matchService eng req rest
          else
            .ok (some service)

/-- The transport built by UpdateServices. -/
structure Transport where
  forceAttemptHTTP2 : Bool
  rootCAs : List String
  insecureSkipVerify : Bool
deriving DecidableEq

/-- The reverse-proxy dispatcher built by UpdateServices. -/
structure Backend where
  transport : Transport
  flushInterval : Int
deriving DecidableEq

/-- The Proxy state (proxy.go): the installed dispatcher (absent before
the first successful UpdateServices), the authenticator, and the
service list used for request matching. -/
structure Proxy where
  proxyBackend : Option Backend
  authenticator : Authenticator
  services : List Service

/-- ServeHTTP (proxy.go): OPTIONS short-circuit, service matching with
static fallback, then the three-way auth-level dispatch. -/
def serveHTTP (eng : RegexEngine) (p : Proxy) (req : Request) :
    ServeResult :=
  if req.Method == "OPTIONS" then
    { outcome := .direct
        (sendDirectResponse req.Header (addCorsHeaders []) 200 ""),
      matchTried := false, authCalled := false,
      canPassCalled := false, tallyCalled := false }
  else
    match matchService eng req p.services with
    | .crashed pat =>
      { outcome := .crashed pat, matchTried := true, authCalled := false,
        canPassCalled := false, tallyCalled := false }
    | .ok none =>
      { outcome := .static, matchTried := true, authCalled := false,
        canPassCalled := false, tallyCalled := false }
    | .ok (some target) =>
      let lvl := target.AuthRequired req
      if lvl.IsOn then
        if !(p.authenticator.accept req.Header target.Name) then
          { outcome := .direct (handlePaymentRequired p.authenticator req
              target.Name target.Price),
            matchTried := true, authCalled := true,
            canPassCalled := false, tallyCalled := false }
        else
          { outcome := .forwarded target, matchTried := true,
            authCalled := true, canPassCalled := false,
            tallyCalled := false }
      else if lvl.IsFreebie then
        if !(p.authenticator.accept req.Header target.Name) then
          match target.freebieDb.CanPass req req.RemoteIP with
          | .error _ =>
            { outcome := .direct
                (sendDirectResponse req.Header [] 500 "freebie DB failure"),
              matchTried := true, authCalled := true,
              canPassCalled := true, tallyCalled := false }
          | .ok false =>
            { outcome := .direct (handlePaymentRequired p.authenticator req
                target.Name target.Price),
              matchTried := true, authCalled := true,
              canPassCalled := true, tallyCalled := false }
          | .ok true =>
            match target.freebieDb.TallyFreebie req req.RemoteIP with
            | .error _ =>
              { outcome := .direct
                  (sendDirectResponse req.Header [] 500 "freebie DB failure"),
                matchTried := true, authCalled := true,
                canPassCalled := true, tallyCalled := true }
            | .ok _ =>
              { outcome := .forwarded target, matchTried := true,
                authCalled := true, canPassCalled := true,
                tallyCalled := true }
        else
          { outcome := .forwarded target, matchTried := true,
            authCalled := true, canPassCalled := false,
            tallyCalled := false }
      else
        { outcome := .forwarded target, matchTried := true,
          authCalled := false, canPassCalled := false,
          tallyCalled := false }

/-- certPool (proxy.go), with the accumulated pool explicit: services
with an empty cert path are skipped; a read failure aborts with that
error; a PEM-append failure aborts with the credentials error.
`readFile` models `ioutil.ReadFile` and `pem` models
`x509.CertPool.AppendCertsFromPEM` succeeding on the contents. -/
def certPoolAux (readFile : String → Except String String)
    (pem : String → Bool) (pool : List String) :
    List Service → Except String (List String)
  | [] => .ok pool
  | service :: rest =>
    if service.TLSCertPath == "" then
      certPoolAux readFile pem pool rest
    else
      match readFile service.TLSCertPath with
      | .error e => .error e
      | .ok b =>
        if !pem b then
          .error "credentials: failed to append certificate"
        else
          certPoolAux readFile pem (pool ++ [b]) rest

/-- certPool (proxy.go) starting from the empty pool. -/
def certPool (readFile : String → Except String String)
    (pem : String → Bool) (services : List Service) :
    Except String (List String) :=
  certPoolAux readFile pem [] services

/-- UpdateServices (proxy.go): prepare the services (prepareServices is
outside src/, abstracted as `prep`), build the cert pool and transport,
and install a new reverse-proxy dispatcher.  On any error the proxy is
returned unchanged together with the error.  NOTE: the source never
reassigns `p.services`, so the matching list is left as it was. -/
def updateServices (prep : List Service → Except String Unit)
    (readFile : String → Except String String) (pem : String → Bool)
    (p : Proxy) (services : List Service) : Proxy × Option String :=
  match prep services with
  | .error e => (p, some e)
  | .ok _ =>
    match certPool readFile pem services with
    | .error e => (p, some e)
    | .ok pool =>
      let transport : Transport :=
        { forceAttemptHTTP2 := true, rootCAs := pool,
          insecureSkipVerify := true }
      let backend : Backend :=
        { transport := transport, flushInterval := -1 }
      ({ p with proxyBackend := some backend }, none)

/-! Concrete collaborator instances used to evaluate the model. -/

/-- A regex engine in which every pattern is valid and matches exactly
the string equal to the pattern itself. -/
def engLit : RegexEngine := ⟨fun pat => some (fun s => s == pat)⟩

/-- A regex engine in which the pattern "(" is syntactically invalid
(as it is for Go's regexp) and every other pattern matches exactly
itself. -/
def engStrict : RegexEngine :=
  ⟨fun pat => if pat == "(" then none else some (fun s => s == pat)⟩

def dbAllow : FreebieDb := ⟨fun _ _ => .ok true, fun _ _ => .ok 1⟩

def dbDeny : FreebieDb := ⟨fun _ _ => .ok false, fun _ _ => .ok 0⟩

def dbErr : FreebieDb :=
  ⟨fun _ _ => .error "quota backend down", fun _ _ => .error "quota backend down"⟩

def dbTallyErr : FreebieDb :=
  ⟨fun _ _ => .ok true, fun _ _ => .error "tally write failed"⟩

/-- A one-entry challenge header set, as the LSAT authenticator returns. -/
def chWWW : HeaderMap := [("WWW-Authenticate", ["LSAT macaroon=MDAx, invoice=lnbc10"])]

def authYes : Authenticator := ⟨fun _ _ => true, fun _ _ _ => .ok chWWW⟩

def authNo : Authenticator := ⟨fun _ _ => false, fun _ _ _ => .ok chWWW⟩

def mkFreeSvc (db : FreebieDb) : Service :=
  { Name := "freesvc", HostRegexp := "free.example", PathRegexp := "",
    Address := "127.0.0.1:10009", Protocol := "https", Price := 0,
    Headers := [], TLSCertPath := "",
    AuthRequired := fun _ => .freebie, freebieDb := db }

def svcPaid : Service :=
  { Name := "paidsvc", HostRegexp := "paid.example", PathRegexp := "",
    Address := "127.0.0.1:11010", Protocol := "https", Price := 1,
    Headers := [], TLSCertPath := "",
    AuthRequired := fun _ => .on, freebieDb := dbAllow }

/-- Same host as svcPaid but restricted to the /data path — listed
second, it must never win over svcPaid. -/
def svcPaidData : Service :=
  { svcPaid with Name := "paiddata", PathRegexp := "/data" }

/-- A service whose host pattern is the invalid regular expression "(". -/
def svcBadPattern : Service :=
  { svcPaid with Name := "badsvc", HostRegexp := "(" }

def mkProxy (svcs : List Service) (auth : Authenticator) : Proxy :=
  ⟨none, auth, svcs⟩

def reqFree : Request :=
  { Method := "GET", Host := "free.example", Path := "/data",
    Header := [], RemoteIP := "8.8.8.8" }

def reqPaid : Request :=
  { Method := "GET", Host := "paid.example", Path := "/data",
    Header := [], RemoteIP := "8.8.8.8" }

def reqOptions : Request :=
  { Method := "OPTIONS", Host := "paid.example", Path := "/data",
    Header := [], RemoteIP := "8.8.8.8" }

def reqGrpc : Request :=
  { Method := "POST", Host := "paid.example", Path := "/v1/rpc",
    Header := [(hdrContentType, ["application/grpc+proto"])],
    RemoteIP := "8.8.8.8" }

/-! Properties of the challenge-header merge loop. -/

theorem hGet_foldl_hAdd_self (vs : List String) (a : HeaderMap)
    (k : String) :
    hGet (vs.foldl (fun acc v => hAdd acc k v) a) k = hGet a k ++ vs := by
  induction vs generalizing a with
  | nil => simp
  | cons v rest ih =>
    rw [List.foldl_cons, ih, hGet_hAdd_self]
    simp

theorem hGet_foldl_hAdd_ne (vs : List String) (a : HeaderMap)
    (k k' : String) (hne : k' ≠ k) :
    hGet (vs.foldl (fun acc v => hAdd acc k v) a) k' = hGet a k' := by
  induction vs generalizing a with
  | nil => rfl
  | cons v rest ih => simp [ih, hGet_hAdd_ne _ _ _ _ hne]

theorem hGet_mergeHeader_self (w : HeaderMap) (nv : String × List String)
    (hne : nv.2 ≠ []) : hGet (mergeHeader w nv) nv.1 = nv.2 := by
  obtain ⟨k, vs⟩ := nv
  cases vs with
  | nil => exact absurd rfl hne
  | cons v0 rest => simp [mergeHeader, hGet_foldl_hAdd_self]

theorem hGet_mergeHeader_ne (w : HeaderMap) (nv : String × List String)
    (k' : String) (hne : k' ≠ nv.1) :
    hGet (mergeHeader w nv) k' = hGet w k' := by
  obtain ⟨k, vs⟩ := nv
  cases vs with
  | nil => rfl
  | cons v0 rest =>
    simp only [mergeHeader]
    rw [hGet_foldl_hAdd_ne _ _ _ _ hne, hGet_hSet_ne _ _ _ _ hne]

theorem hGet_mergeChallenge_not_mem (ch : HeaderMap) (w : HeaderMap)
    (k : String) (hk : ∀ nv ∈ ch, nv.1 ≠ k) :
    hGet (mergeChallenge w ch) k = hGet w k := by
  induction ch generalizing w with
  | nil => rfl
  | cons e rest ih =>
    have he : k ≠ e.1 := fun h => hk e (List.mem_cons_self e rest) h.symm
    rw [show mergeChallenge w (e :: rest) =
      mergeChallenge (mergeHeader w e) rest from rfl]
    rw [ih (mergeHeader w e) (fun nv hnv => hk nv (List.mem_cons_of_mem e hnv))]
    exact hGet_mergeHeader_ne w e k he

theorem hGet_mergeChallenge_mem (ch : HeaderMap) (w : HeaderMap)
    (nv : String × List String) (hnd : (ch.map Prod.fst).Nodup)
    (hmem : nv ∈ ch) (hne : nv.2 ≠ []) :
    hGet (mergeChallenge w ch) nv.1 = nv.2 := by
  induction ch generalizing w with
  | nil => cases hmem
  | cons e rest ih =>
    simp only [List.map_cons, List.nodup_cons] at hnd
    rcases List.mem_cons.mp hmem with heq | htail
    · subst heq
      rw [show mergeChallenge w (nv :: rest) =
        mergeChallenge (mergeHeader w nv) rest from rfl]
      rw [hGet_mergeChallenge_not_mem rest (mergeHeader w nv) nv.1
        (fun nv' hnv' h => hnd.1 (h ▸ List.mem_map_of_mem Prod.fst hnv'))]
      exact hGet_mergeHeader_self w nv hne
    · rw [show mergeChallenge w (e :: rest) =
        mergeChallenge (mergeHeader w e) rest from rfl]
      exact ih (mergeHeader w e) hnd.2 htail

/-! Evaluation lemmas for each dispatch path of ServeHTTP. -/

theorem serveHTTP_paid_accept (eng : RegexEngine) (p : Proxy)
    (req : Request) (target : Service) (hopt : req.Method ≠ "OPTIONS")
    (hm : matchService eng req p.services = .ok (some target))
    (hl : target.AuthRequired req = Level.on)
    (hacc : p.authenticator.accept req.Header target.Name = true) :
    serveHTTP eng p req =
      { outcome := .forwarded target, matchTried := true,
        authCalled := true, canPassCalled := false, tallyCalled := false } := by
  unfold serveHTTP
  rw [if_neg (by simp [hopt]), hm]
  dsimp only
  rw [hl, hacc]
  rfl

theorem serveHTTP_paid_reject (eng : RegexEngine) (p : Proxy)
    (req : Request) (target : Service) (hopt : req.Method ≠ "OPTIONS")
    (hm : matchService eng req p.services = .ok (some target))
    (hl : target.AuthRequired req = Level.on)
    (hacc : p.authenticator.accept req.Header target.Name = false) :
    serveHTTP eng p req =
      { outcome := .direct (handlePaymentRequired p.authenticator req
          target.Name target.Price),
        matchTried := true, authCalled := true, canPassCalled := false,
        tallyCalled := false } := by
  unfold serveHTTP
  rw [if_neg (by simp [hopt]), hm]
  dsimp only
  rw [hl, hacc]
  rfl

theorem serveHTTP_freebie_accept (eng : RegexEngine) (p : Proxy)
    (req : Request) (target : Service) (hopt : req.Method ≠ "OPTIONS")
    (hm : matchService eng req p.services = .ok (some target))
    (hl : target.AuthRequired req = Level.freebie)
    (hacc : p.authenticator.accept req.Header target.Name = true) :
    serveHTTP eng p req =
      { outcome := .forwarded target, matchTried := true,
        authCalled := true, canPassCalled := false, tallyCalled := false } := by
  unfold serveHTTP
  rw [if_neg (by simp [hopt]), hm]
  dsimp only
  rw [hl, hacc]
  rfl

theorem serveHTTP_freebie_canPass_error (eng : RegexEngine) (p : Proxy)
    (req : Request) (target : Service) (e : String)
    (hopt : req.Method ≠ "OPTIONS")
    (hm : matchService eng req p.services = .ok (some target))
    (hl : target.AuthRequired req = Level.freebie)
    (hacc : p.authenticator.accept req.Header target.Name = false)
    (hcp : target.freebieDb.CanPass req req.RemoteIP = .error e) :
    serveHTTP eng p req =
      { outcome := .direct
          (sendDirectResponse req.Header [] 500 "freebie DB failure"),
        matchTried := true, authCalled := true, canPassCalled := true,
        tallyCalled := false } := by
  unfold serveHTTP
  rw [if_neg (by simp [hopt]), hm]
  dsimp only
  rw [hl, hacc]
  dsimp only [Level.IsOn, Level.IsFreebie]
  rw [hcp]
  rfl

theorem serveHTTP_freebie_deny (eng : RegexEngine) (p : Proxy)
    (req : Request) (target : Service) (hopt : req.Method ≠ "OPTIONS")
    (hm : matchService eng req p.services = .ok (some target))
    (hl : target.AuthRequired req = Level.freebie)
    (hacc : p.authenticator.accept req.Header target.Name = false)
    (hcp : target.freebieDb.CanPass req req.RemoteIP = .ok false) :
    serveHTTP eng p req =
      { outcome := .direct (handlePaymentRequired p.authenticator req
          target.Name target.Price),
        matchTried := true, authCalled := true, canPassCalled := true,
        tallyCalled := false } := by
  unfold serveHTTP
  rw [if_neg (by simp [hopt]), hm]
  dsimp only
  rw [hl, hacc]
  dsimp only [Level.IsOn, Level.IsFreebie]
  rw [hcp]
  rfl

theorem serveHTTP_freebie_tally_error (eng : RegexEngine) (p : Proxy)
    (req : Request) (target : Service) (e : String)
    (hopt : req.Method ≠ "OPTIONS")
    (hm : matchService eng req p.services = .ok (some target))
    (hl : target.AuthRequired req = Level.freebie)
    (hacc : p.authenticator.accept req.Header target.Name = false)
    (hcp : target.freebieDb.CanPass req req.RemoteIP = .ok true)
    (htl : target.freebieDb.TallyFreebie req req.RemoteIP = .error e) :
    serveHTTP eng p req =
      { outcome := .direct
          (sendDirectResponse req.Header [] 500 "freebie DB failure"),
        matchTried := true, authCalled := true, canPassCalled := true,
        tallyCalled := true } := by
  unfold serveHTTP
  rw [if_neg (by simp [hopt]), hm]
  dsimp only
  rw [hl, hacc]
  dsimp only [Level.IsOn, Level.IsFreebie]
  rw [hcp]
  dsimp only
  rw [htl]
  rfl

theorem serveHTTP_freebie_pass (eng : RegexEngine) (p : Proxy)
    (req : Request) (target : Service) (n : Nat)
    (hopt : req.Method ≠ "OPTIONS")
    (hm : matchService eng req p.services = .ok (some target))
    (hl : target.AuthRequired req = Level.freebie)
    (hacc : p.authenticator.accept req.Header target.Name = false)
    (hcp : target.freebieDb.CanPass req req.RemoteIP = .ok true)
    (htl : target.freebieDb.TallyFreebie req req.RemoteIP = .ok n) :
    serveHTTP eng p req =
      { outcome := .forwarded target, matchTried := true,
        authCalled := true, canPassCalled := true, tallyCalled := true } := by
  unfold serveHTTP
  rw [if_neg (by simp [hopt]), hm]
  dsimp only
  rw [hl, hacc]
  dsimp only [Level.IsOn, Level.IsFreebie]
  rw [hcp]
  dsimp only
  rw [htl]
  rfl

/-! Claim theorems. -/

/-- C5: a direct response to a request whose Content-Type has the gRPC
prefix carries `Grpc-Status` and `Grpc-Message` headers and no body at
the given HTTP status, and `Grpc-Status` is always the generic internal
code 13 regardless of that status; a plain client gets a text body with
the message at the same status. -/
theorem sendDirectResponse_translator (reqHeader w : HeaderMap)
    (statusCode : Nat) (errInfo : String) :
    (hasPrefixStr (hGetFirst reqHeader hdrContentType) hdrTypeGrpc = true →
      sendDirectResponse reqHeader w statusCode errInfo =
        { status := statusCode,
          headers := hSet (hSet w "Grpc-Status" "13") "Grpc-Message" errInfo,
          body := none }
      ∧ hGet (sendDirectResponse reqHeader w statusCode errInfo).headers
          "Grpc-Status" = ["13"]
      ∧ hGet (sendDirectResponse reqHeader w statusCode errInfo).headers
          "Grpc-Message" = [errInfo])
    ∧ (hasPrefixStr (hGetFirst reqHeader hdrContentType) hdrTypeGrpc = false →
      sendDirectResponse reqHeader w statusCode errInfo =
        { status := statusCode,
          headers := hSet (hSet w hdrContentType "text/plain; charset=utf-8")
            "X-Content-Type-Options" "nosniff",
          body := some errInfo }) := by
  constructor
  · intro hg
    have he : sendDirectResponse reqHeader w statusCode errInfo =
        { status := statusCode,
          headers := hSet (hSet w "Grpc-Status" "13") "Grpc-Message" errInfo,
          body := none } := by
      unfold sendDirectResponse
      rw [if_pos hg]
      rfl
    refine ⟨he, ?_, ?_⟩
    · rw [he]
      rw [hGet_hSet_ne _ _ _ _ (by decide), hGet_hSet_self]
    · rw [he, hGet_hSet_self]
  · intro hg
    unfold sendDirectResponse
    rw [if_neg (by simp [hg])]

/-- C5 witness: evaluation at a concrete gRPC request header and a
concrete plain header, at HTTP status 402. -/
theorem sendDirectResponse_translator_check :
    hGet (sendDirectResponse reqGrpc.Header [] 402 "payment required").headers
      "Grpc-Status" = ["13"]
    ∧ (sendDirectResponse reqGrpc.Header [] 402 "payment required").body = none
    ∧ (sendDirectResponse reqFree.Header [] 402 "payment required").body =
      some "payment required" := by
  have hg := (sendDirectResponse_translator reqGrpc.Header [] 402
    "payment required").1 (by decide)
  have hp := (sendDirectResponse_translator reqFree.Header [] 402
    "payment required").2 (by decide)
  refine ⟨hg.2.1, ?_, ?_⟩
  · rw [hg.1]
  · rw [hp]

/-- C4: an OPTIONS request, matched or not, gets a 200 direct response
with the four CORS headers and an empty body, with no service matching,
authenticator call, quota consultation, or forwarding performed. -/
theorem options_short_circuit (eng : RegexEngine) (p : Proxy)
    (req : Request) (hm : req.Method = "OPTIONS") :
    (serveHTTP eng p req).outcome =
      .direct (sendDirectResponse req.Header (addCorsHeaders []) 200 "")
    ∧ (serveHTTP eng p req).matchTried = false
    ∧ (serveHTTP eng p req).authCalled = false
    ∧ (serveHTTP eng p req).canPassCalled = false
    ∧ (serveHTTP eng p req).tallyCalled = false
    ∧ (sendDirectResponse req.Header (addCorsHeaders []) 200 "").status = 200
    ∧ hGet (sendDirectResponse req.Header (addCorsHeaders []) 200 "").headers
        "Access-Control-Allow-Origin" = ["*"]
    ∧ hGet (sendDirectResponse req.Header (addCorsHeaders []) 200 "").headers
        "Access-Control-Allow-Methods" = ["GET, POST, OPTIONS"]
    ∧ hGet (sendDirectResponse req.Header (addCorsHeaders []) 200 "").headers
        "Access-Control-Expose-Headers" = ["WWW-Authenticate"]
    ∧ hGet (sendDirectResponse req.Header (addCorsHeaders []) 200 "").headers
        "Access-Control-Allow-Headers" =
        ["Authorization, Grpc-Metadata-macaroon, WWW-Authenticate"]
    ∧ ((sendDirectResponse req.Header (addCorsHeaders []) 200 "").body = none
       ∨ (sendDirectResponse req.Header (addCorsHeaders []) 200 "").body =
         some "") := by
  have hsv : serveHTTP eng p req =
      { outcome := .direct
          (sendDirectResponse req.Header (addCorsHeaders []) 200 ""),
        matchTried := false, authCalled := false,
        canPassCalled := false, tallyCalled := false } := by
    unfold serveHTTP
    rw [if_pos (by simp [hm])]
  have hcors : ∀ k : String, k ≠ "Grpc-Status" → k ≠ "Grpc-Message" →
      k ≠ hdrContentType → k ≠ "X-Content-Type-Options" →
      hGet (sendDirectResponse req.Header (addCorsHeaders []) 200 "").headers
        k = hGet (addCorsHeaders []) k := by
    intro k h1 h2 h3 h4
    unfold sendDirectResponse
    by_cases hg : hasPrefixStr (hGetFirst req.Header hdrContentType) hdrTypeGrpc
    · rw [if_pos hg]
      simp only []
      rw [hGet_hSet_ne _ _ _ _ h2, hGet_hSet_ne _ _ _ _ h1]
    · rw [if_neg hg]
      simp only []
      rw [hGet_hSet_ne _ _ _ _ h4, hGet_hSet_ne _ _ _ _ h3]
  have hbody : (sendDirectResponse req.Header (addCorsHeaders []) 200 "").body
      = none
      ∨ (sendDirectResponse req.Header (addCorsHeaders []) 200 "").body =
        some "" := by
    unfold sendDirectResponse
    by_cases hg : hasPrefixStr (hGetFirst req.Header hdrContentType) hdrTypeGrpc
    · rw [if_pos hg]; left; rfl
    · rw [if_neg hg]; right; rfl
  have hstatus :
      (sendDirectResponse req.Header (addCorsHeaders []) 200 "").status =
        200 := by
    unfold sendDirectResponse
    by_cases hg : hasPrefixStr (hGetFirst req.Header hdrContentType) hdrTypeGrpc
    · rw [if_pos hg]
    · rw [if_neg hg]
  refine ⟨by rw [hsv], by rw [hsv], by rw [hsv], by rw [hsv], by rw [hsv],
    hstatus, ?_, ?_, ?_, ?_, hbody⟩
  · rw [hcors _ (by decide) (by decide) (by decide) (by decide)]; rfl
  · rw [hcors _ (by decide) (by decide) (by decide) (by decide)]; rfl
  · rw [hcors _ (by decide) (by decide) (by decide) (by decide)]; rfl
  · rw [hcors _ (by decide) (by decide) (by decide) (by decide)]; rfl

/-- Extract the direct response of an outcome, if any. -/
def Outcome.response? : Outcome → Option Response
  | .direct resp => some resp
  | _ => none

theorem sendDirectResponse_status (reqH w : HeaderMap) (sc : Nat)
    (e : String) : (sendDirectResponse reqH w sc e).status = sc := by
  unfold sendDirectResponse
  by_cases hg : hasPrefixStr (hGetFirst reqH hdrContentType) hdrTypeGrpc
  · rw [if_pos hg]
  · rw [if_neg hg]

theorem sendDirectResponse_message (reqH w : HeaderMap) (sc : Nat)
    (e : String) :
    (sendDirectResponse reqH w sc e).body = some e
    ∨ hGet (sendDirectResponse reqH w sc e).headers "Grpc-Message" = [e] := by
  unfold sendDirectResponse
  by_cases hg : hasPrefixStr (hGetFirst reqH hdrContentType) hdrTypeGrpc
  · rw [if_pos hg]
    right
    exact hGet_hSet_self _ _ _
  · rw [if_neg hg]
    left
    rfl

theorem hGet_sendDirectResponse_other (reqH w : HeaderMap) (sc : Nat)
    (e k : String) (h1 : k ≠ "Grpc-Status") (h2 : k ≠ "Grpc-Message")
    (h3 : k ≠ hdrContentType) (h4 : k ≠ "X-Content-Type-Options") :
    hGet (sendDirectResponse reqH w sc e).headers k = hGet w k := by
  unfold sendDirectResponse
  by_cases hg : hasPrefixStr (hGetFirst reqH hdrContentType) hdrTypeGrpc
  · rw [if_pos hg]
    dsimp only
    rw [hGet_hSet_ne _ _ _ _ h2, hGet_hSet_ne _ _ _ _ h1]
  · rw [if_neg hg]
    dsimp only
    rw [hGet_hSet_ne _ _ _ _ h4, hGet_hSet_ne _ _ _ _ h3]

/-- C4 witness: evaluation of the OPTIONS short-circuit at a concrete
proxy and request. -/
theorem options_short_circuit_check :
    (serveHTTP engLit (mkProxy [svcPaid] authNo) reqOptions).outcome =
      .direct (sendDirectResponse reqOptions.Header (addCorsHeaders []) 200 "")
    ∧ (serveHTTP engLit (mkProxy [svcPaid] authNo) reqOptions).authCalled =
      false
    ∧ hGet (sendDirectResponse reqOptions.Header (addCorsHeaders []) 200
        "").headers "Access-Control-Allow-Origin" = ["*"] := by
  have h := options_short_circuit engLit (mkProxy [svcPaid] authNo)
    reqOptions rfl
  exact ⟨h.1, h.2.2.1, h.2.2.2.2.2.2.1⟩

/-- C1: for a request matched to a LimitedFree service — if the
authenticator accepts, the request is forwarded with the freebie tracker
neither consulted nor tallied; if it rejects and CanPass says true,
TallyFreebie is called and (when the tally succeeds) the request is
forwarded; if it rejects and CanPass says false, the gateway responds
with the 402 challenge. -/
theorem freebie_dispatch (eng : RegexEngine) (p : Proxy) (req : Request)
    (target : Service) (hopt : req.Method ≠ "OPTIONS")
    (hm : matchService eng req p.services = .ok (some target))
    (hl : target.AuthRequired req = Level.freebie) :
    (p.authenticator.accept req.Header target.Name = true →
      (serveHTTP eng p req).outcome = .forwarded target
      ∧ (serveHTTP eng p req).canPassCalled = false
      ∧ (serveHTTP eng p req).tallyCalled = false)
    ∧ (p.authenticator.accept req.Header target.Name = false →
      target.freebieDb.CanPass req req.RemoteIP = .ok true →
      (serveHTTP eng p req).tallyCalled = true
      ∧ ∀ n, target.freebieDb.TallyFreebie req req.RemoteIP = Except.ok n →
          (serveHTTP eng p req).outcome = .forwarded target)
    ∧ (p.authenticator.accept req.Header target.Name = false →
      target.freebieDb.CanPass req req.RemoteIP = .ok false →
      (serveHTTP eng p req).outcome = .direct
        (handlePaymentRequired p.authenticator req target.Name target.Price)
      ∧ ∀ ch, p.authenticator.freshChallengeHeader
            { req with Header := addCorsHeaders req.Header }
            target.Name target.Price = Except.ok ch →
          (handlePaymentRequired p.authenticator req target.Name
            target.Price).status = 402) := by
  refine ⟨?_, ?_, ?_⟩
  · intro hacc
    rw [serveHTTP_freebie_accept eng p req target hopt hm hl hacc]
    exact ⟨rfl, rfl, rfl⟩
  · intro hacc hcp
    cases htl : target.freebieDb.TallyFreebie req req.RemoteIP with
    | error e =>
      rw [serveHTTP_freebie_tally_error eng p req target e hopt hm hl hacc
        hcp htl]
      refine ⟨rfl, ?_⟩
      intro n hn
      exact Except.noConfusion hn
    | ok n =>
      rw [serveHTTP_freebie_pass eng p req target n hopt hm hl hacc hcp htl]
      exact ⟨rfl, fun _ _ => rfl⟩
  · intro hacc hcp
    rw [serveHTTP_freebie_deny eng p req target hopt hm hl hacc hcp]
    refine ⟨rfl, ?_⟩
    intro ch hch
    unfold handlePaymentRequired
    dsimp only
    rw [hch]
    exact sendDirectResponse_status _ _ _ _

/-- C1 witness: concrete runs of the three LimitedFree paths — valid
credential (forwarded, no quota calls), anonymous within quota
(tallied and forwarded), anonymous and quota exhausted (402). -/
theorem freebie_dispatch_check :
    (serveHTTP engLit (mkProxy [mkFreeSvc dbErr] authYes) reqFree).outcome =
      .forwarded (mkFreeSvc dbErr)
    ∧ (serveHTTP engLit (mkProxy [mkFreeSvc dbErr] authYes)
        reqFree).canPassCalled = false
    ∧ (serveHTTP engLit (mkProxy [mkFreeSvc dbAllow] authNo)
        reqFree).tallyCalled = true
    ∧ (serveHTTP engLit (mkProxy [mkFreeSvc dbAllow] authNo) reqFree).outcome
      = .forwarded (mkFreeSvc dbAllow)
    ∧ (serveHTTP engLit (mkProxy [mkFreeSvc dbDeny] authNo) reqFree).outcome
      = .direct (handlePaymentRequired authNo reqFree (mkFreeSvc dbDeny).Name
          (mkFreeSvc dbDeny).Price)
    ∧ (handlePaymentRequired authNo reqFree (mkFreeSvc dbDeny).Name
        (mkFreeSvc dbDeny).Price).status = 402 := by
  have h1 := freebie_dispatch engLit (mkProxy [mkFreeSvc dbErr] authYes)
    reqFree (mkFreeSvc dbErr) (by decide) rfl rfl
  have h2 := freebie_dispatch engLit (mkProxy [mkFreeSvc dbAllow] authNo)
    reqFree (mkFreeSvc dbAllow) (by decide) rfl rfl
  have h3 := freebie_dispatch engLit (mkProxy [mkFreeSvc dbDeny] authNo)
    reqFree (mkFreeSvc dbDeny) (by decide) rfl rfl
  exact ⟨(h1.1 rfl).1, (h1.1 rfl).2.1, (h2.2.1 rfl rfl).1,
    (h2.2.1 rfl rfl).2 1 rfl, (h3.2.2 rfl rfl).1,
    (h3.2.2 rfl rfl).2 chWWW rfl⟩

/-- C2: for a request matched to a Paid service — if the authenticator
rejects, the response is the 402 challenge carrying, for every header
name the fresh-challenge call returned (that the direct-response
encoder does not itself write), exactly the returned values: the first
one via Set (replacing), the rest via Add (appending); if the
authenticator accepts, the request is forwarded. -/
theorem paid_dispatch (eng : RegexEngine) (p : Proxy) (req : Request)
    (target : Service) (hopt : req.Method ≠ "OPTIONS")
    (hm : matchService eng req p.services = .ok (some target))
    (hl : target.AuthRequired req = Level.on) :
    (p.authenticator.accept req.Header target.Name = true →
      (serveHTTP eng p req).outcome = .forwarded target)
    ∧ (p.authenticator.accept req.Header target.Name = false →
      (serveHTTP eng p req).outcome = .direct
        (handlePaymentRequired p.authenticator req target.Name target.Price)
      ∧ ∀ ch, p.authenticator.freshChallengeHeader
            { req with Header := addCorsHeaders req.Header }
            target.Name target.Price = Except.ok ch →
          (ch.map Prod.fst).Nodup →
          (handlePaymentRequired p.authenticator req target.Name
            target.Price).status = 402
          ∧ ∀ nv ∈ ch, nv.2 ≠ [] →
              nv.1 ∉ ["Grpc-Status", "Grpc-Message", hdrContentType,
                "X-Content-Type-Options"] →
              hGet (handlePaymentRequired p.authenticator req target.Name
                target.Price).headers nv.1 = nv.2) := by
  constructor
  · intro hacc
    rw [serveHTTP_paid_accept eng p req target hopt hm hl hacc]
  · intro hacc
    refine ⟨by rw [serveHTTP_paid_reject eng p req target hopt hm hl hacc],
      ?_⟩
    intro ch hch hnd
    have hre : handlePaymentRequired p.authenticator req target.Name
        target.Price = sendDirectResponse (addCorsHeaders req.Header)
        (mergeChallenge [] ch) 402 "payment required" := by
      unfold handlePaymentRequired
      dsimp only
      rw [hch]
    refine ⟨by rw [hre]; exact sendDirectResponse_status _ _ _ _, ?_⟩
    intro nv hmem hnev hnin
    simp only [List.mem_cons, List.not_mem_nil, or_false, not_or] at hnin
    rw [hre, hGet_sendDirectResponse_other _ _ _ _ _ hnin.1 hnin.2.1
      hnin.2.2.1 hnin.2.2.2]
    exact hGet_mergeChallenge_mem ch [] nv hnd hmem hnev

/-- C2 witness: an anonymous request to the paid service gets the 402
challenge carrying the authenticator's challenge header; with a valid
credential the same request is forwarded. -/
theorem paid_dispatch_check :
    (serveHTTP engLit (mkProxy [svcPaid] authNo) reqPaid).outcome =
      .direct (handlePaymentRequired authNo reqPaid svcPaid.Name
        svcPaid.Price)
    ∧ (handlePaymentRequired authNo reqPaid svcPaid.Name
        svcPaid.Price).status = 402
    ∧ hGet (handlePaymentRequired authNo reqPaid svcPaid.Name
        svcPaid.Price).headers "WWW-Authenticate" =
      ["LSAT macaroon=MDAx, invoice=lnbc10"]
    ∧ (serveHTTP engLit (mkProxy [svcPaid] authYes) reqPaid).outcome =
      .forwarded svcPaid := by
  have h1 := paid_dispatch engLit (mkProxy [svcPaid] authNo) reqPaid svcPaid
    (by decide) rfl rfl
  have h2 := paid_dispatch engLit (mkProxy [svcPaid] authYes) reqPaid svcPaid
    (by decide) rfl rfl
  have hch := (h1.2 rfl).2 chWWW rfl (by decide)
  refine ⟨(h1.2 rfl).1, hch.1, ?_, h2.1 rfl⟩
  have := hch.2 ("WWW-Authenticate", ["LSAT macaroon=MDAx, invoice=lnbc10"])
    (by decide) (by decide) (by decide)
  exact this

/-- C6 counterexample: when the freebie tracker errors, the gateway
responds 500 with the message "freebie DB failure", not the claimed
"quota lookup failure". -/
theorem freebie_error_counterexample :
    ((serveHTTP engLit (mkProxy [mkFreeSvc dbErr] authNo)
        reqFree).outcome.response?.map (fun r => (r.status, r.body))) =
      some (500, some "freebie DB failure")
    ∧ ("freebie DB failure" : String) ≠ "quota lookup failure" := by
  exact ⟨rfl, by decide⟩

/-- C6 (amended): when CanPass or TallyFreebie errors on a LimitedFree
request, the gateway responds 500 with the message "freebie DB failure"
(as text body for plain clients, as the protocol message header for
gRPC clients). -/
theorem freebie_error_message (eng : RegexEngine) (p : Proxy)
    (req : Request) (target : Service) (hopt : req.Method ≠ "OPTIONS")
    (hm : matchService eng req p.services = .ok (some target))
    (hl : target.AuthRequired req = Level.freebie)
    (hacc : p.authenticator.accept req.Header target.Name = false) :
    (∀ e, target.freebieDb.CanPass req req.RemoteIP = Except.error e →
      (serveHTTP eng p req).outcome = .direct
        (sendDirectResponse req.Header [] 500 "freebie DB failure"))
    ∧ (∀ e, target.freebieDb.CanPass req req.RemoteIP = Except.ok true →
        target.freebieDb.TallyFreebie req req.RemoteIP = Except.error e →
      (serveHTTP eng p req).outcome = .direct
        (sendDirectResponse req.Header [] 500 "freebie DB failure"))
    ∧ (sendDirectResponse req.Header [] 500 "freebie DB failure").status =
      500
    ∧ ((sendDirectResponse req.Header [] 500 "freebie DB failure").body =
        some "freebie DB failure"
      ∨ hGet (sendDirectResponse req.Header [] 500
          "freebie DB failure").headers "Grpc-Message" =
        ["freebie DB failure"]) := by
  refine ⟨?_, ?_, sendDirectResponse_status _ _ _ _,
    sendDirectResponse_message _ _ _ _⟩
  · intro e hcp
    rw [serveHTTP_freebie_canPass_error eng p req target e hopt hm hl hacc
      hcp]
  · intro e hcp htl
    rw [serveHTTP_freebie_tally_error eng p req target e hopt hm hl hacc
      hcp htl]

/-- C6 witness: concrete runs of the CanPass-error and TallyFreebie-
error paths, both yielding the 500 "freebie DB failure" response. -/
theorem freebie_error_message_check :
    (serveHTTP engLit (mkProxy [mkFreeSvc dbErr] authNo) reqFree).outcome =
      .direct (sendDirectResponse reqFree.Header [] 500 "freebie DB failure")
    ∧ (serveHTTP engLit (mkProxy [mkFreeSvc dbTallyErr] authNo)
        reqFree).outcome =
      .direct (sendDirectResponse reqFree.Header [] 500 "freebie DB failure")
    ∧ (sendDirectResponse reqFree.Header [] 500
        "freebie DB failure").status = 500 := by
  have h1 := freebie_error_message engLit (mkProxy [mkFreeSvc dbErr] authNo)
    reqFree (mkFreeSvc dbErr) (by decide) rfl rfl rfl
  have h2 := freebie_error_message engLit
    (mkProxy [mkFreeSvc dbTallyErr] authNo) reqFree (mkFreeSvc dbTallyErr)
    (by decide) rfl rfl rfl
  exact ⟨h1.1 "quota backend down" rfl, h2.2.1 "tally write failed" rfl rfl,
    h1.2.2.1⟩

/-- Refinement characterization of a routing match, following the
spec's words: a Service matches when its host pattern matches the
request's host and its path pattern is empty or matches the request
path. -/
def serviceMatchesSpec (eng : RegexEngine) (req : Request) (s : Service) :
    Bool :=
  (match eng.compile s.HostRegexp with
   | some m => m req.Host
   | none => false)
  && (s.PathRegexp == "" ||
      (match eng.compile s.PathRegexp with
       | some m => m req.Path
       | none => false))

/-- All patterns of the list compile (so `MustCompile` cannot crash). -/
def compilesAll (eng : RegexEngine) (services : List Service) : Prop :=
  ∀ s ∈ services, (∃ m, eng.compile s.HostRegexp = some m)
    ∧ (s.PathRegexp = "" ∨ ∃ m, eng.compile s.PathRegexp = some m)

/-- C3: when every pattern compiles, matchService returns exactly the
first service in list order satisfying the host-and-path matching
predicate (`List.find?` is first-match in list order, so no later entry
is returned when an earlier one matches and not-found is reported when
none matches), and on not-found the gateway dispatches the request to
the static fallback handler. -/
theorem matchService_first_match (eng : RegexEngine) (req : Request)
    (services : List Service) (h : compilesAll eng services)
    (hopt : req.Method ≠ "OPTIONS") :
    matchService eng req services =
      .ok (services.find? (serviceMatchesSpec eng req))
    ∧ (services.find? (serviceMatchesSpec eng req) = none →
      ∀ (pb : Option Backend) (auth : Authenticator),
        (serveHTTP eng
          { proxyBackend := pb, authenticator := auth,
            services := services } req).outcome = .static) := by
  have hmain : matchService eng req services =
      .ok (services.find? (serviceMatchesSpec eng req)) := by
    induction services with
    | nil => rfl
    | cons s rest ih =>
      obtain ⟨⟨m, hm⟩, hpath⟩ := h s (List.mem_cons_self s rest)
      have hrest := ih (fun t ht => h t (List.mem_cons_of_mem s ht))
      by_cases hh : m req.Host = true
      · by_cases hp : s.PathRegexp = ""
        · have hspec : serviceMatchesSpec eng req s = true := by
            simp [serviceMatchesSpec, hm, hh, hp]
          rw [List.find?_cons_of_pos _ hspec]
          unfold matchService
          rw [hm]
          simp [hh, hp]
        · rcases hpath with hp' | ⟨m2, hm2⟩
          · exact absurd hp' hp
          · by_cases hpp : m2 req.Path = true
            · have hspec : serviceMatchesSpec eng req s = true := by
                simp [serviceMatchesSpec, hm, hh, hm2, hpp]
              rw [List.find?_cons_of_pos _ hspec]
              unfold matchService
              rw [hm, hm2]
              simp [hh, hp, hpp]
            · have hspec : serviceMatchesSpec eng req s = false := by
                simp [serviceMatchesSpec, hm, hh, hm2, hpp, hp]
              rw [List.find?_cons_of_neg _ (by simp [hspec])]
              unfold matchService
              rw [hm, hm2]
              simp only [hh, Bool.not_true, Bool.false_eq_true, if_false,
                beq_iff_eq, hp, if_false, hpp]
              simpa using hrest
      · have hspec : serviceMatchesSpec eng req s = false := by
          simp [serviceMatchesSpec, hm, hh]
        rw [List.find?_cons_of_neg _ (by simp [hspec])]
        unfold matchService
        rw [hm]
        simp only [hh, Bool.not_false, if_true]
        exact hrest
  refine ⟨hmain, ?_⟩
  intro hnone pb auth
  unfold serveHTTP
  rw [if_neg (by simp [hopt])]
  dsimp only
  rw [hmain, hnone]

/-- C3 witness: with two services on the same host in order
(empty path pattern first, then a path-specific one), the first wins;
with no matching service the request goes to the static handler. -/
theorem matchService_first_match_check :
    matchService engLit reqPaid [svcPaid, svcPaidData] = .ok (some svcPaid)
    ∧ (serveHTTP engLit (mkProxy [svcPaid] authNo) reqFree).outcome =
      .static := by
  have h1 := matchService_first_match engLit reqPaid [svcPaid, svcPaidData]
    (fun s _ => ⟨⟨_, rfl⟩, Or.inr ⟨_, rfl⟩⟩) (by decide)
  have h2 := matchService_first_match engLit reqFree [svcPaid]
    (fun s _ => ⟨⟨_, rfl⟩, Or.inr ⟨_, rfl⟩⟩) (by decide)
  constructor
  · rw [h1.1]
    rfl
  · exact h2.2 rfl none authNo

/-- C10: matchService compiles patterns with MustCompile on every call,
so a service list whose first entry has a syntactically invalid host
pattern makes request matching crash (the Go source panics) instead of
returning not-found or an error value. -/
theorem matchService_invalid_pattern_aborts (eng : RegexEngine)
    (req : Request) (s : Service) (rest : List Service)
    (h : eng.compile s.HostRegexp = none) :
    matchService eng req (s :: rest) = .crashed s.HostRegexp
    ∧ ∀ r, matchService eng req (s :: rest) ≠ .ok r := by
  have he : matchService eng req (s :: rest) = .crashed s.HostRegexp := by
    unfold matchService
    rw [h]
  refine ⟨he, ?_⟩
  intro r hr
  rw [he] at hr
  cases hr

/-- C10 witness: under an engine where "(" is invalid (as in Go's
regexp), matching against a service list headed by that pattern
crashes. -/
theorem matchService_invalid_pattern_aborts_check :
    matchService engStrict reqPaid [svcBadPattern] = .crashed "(" := by
  exact (matchService_invalid_pattern_aborts engStrict reqPaid
    svcBadPattern [] rfl).1

/-- A service whose configured certificate is unusable: its cert path is
set and either the file read fails or the contents cannot be appended
as a PEM certificate. -/
def badCert (readFile : String → Except String String)
    (pem : String → Bool) (s : Service) : Bool :=
  s.TLSCertPath != "" &&
    (match readFile s.TLSCertPath with
     | .error _ => true
     | .ok b => !pem b)

theorem certPoolAux_error_of_bad (readFile : String → Except String String)
    (pem : String → Bool) :
    ∀ services : List Service,
      (∃ s ∈ services, badCert readFile pem s = true) →
      ∀ pool, ∃ e, certPoolAux readFile pem pool services = .error e := by
  intro services
  induction services with
  | nil =>
    intro h
    rcases h with ⟨s, hs, _⟩
    exact absurd hs (List.not_mem_nil s)
  | cons s rest ih =>
    intro h pool
    by_cases hempty : s.TLSCertPath = ""
    · have hrest : ∃ t ∈ rest, badCert readFile pem t = true := by
        rcases h with ⟨t, ht, hbad⟩
        rcases List.mem_cons.mp ht with heq | htail
        · subst heq
          simp [badCert, hempty] at hbad
        · exact ⟨t, htail, hbad⟩
      obtain ⟨e, he⟩ := ih hrest pool
      refine ⟨e, ?_⟩
      unfold certPoolAux
      rw [if_pos (by simp [hempty])]
      exact he
    · cases hr : readFile s.TLSCertPath with
      | error e =>
        refine ⟨e, ?_⟩
        unfold certPoolAux
        rw [if_neg (by simp [hempty]), hr]
      | ok b =>
        by_cases hpem : pem b = true
        · have hrest : ∃ t ∈ rest, badCert readFile pem t = true := by
            rcases h with ⟨t, ht, hbad⟩
            rcases List.mem_cons.mp ht with heq | htail
            · subst heq
              simp [badCert, hr, hpem] at hbad
            · exact ⟨t, htail, hbad⟩
          obtain ⟨e, he⟩ := ih hrest (pool ++ [b])
          refine ⟨e, ?_⟩
          unfold certPoolAux
          rw [if_neg (by simp [hempty]), hr]
          dsimp only
          rw [if_neg (by simp [hpem])]
          exact he
        · refine ⟨"credentials: failed to append certificate", ?_⟩
          unfold certPoolAux
          rw [if_neg (by simp [hempty]), hr]
          dsimp only
          rw [if_pos (by simp [hpem])]

/-- C8: when some service of the new list has a set certificate path
whose file is unreadable or whose contents cannot be appended as a PEM
certificate, UpdateServices returns an error and leaves the proxy —
including the installed dispatcher and transport — unchanged. -/
theorem updateServices_no_partial_swap
    (prep : List Service → Except String Unit)
    (readFile : String → Except String String) (pem : String → Bool)
    (p : Proxy) (services : List Service)
    (h : ∃ s ∈ services, badCert readFile pem s = true) :
    (updateServices prep readFile pem p services).1 = p
    ∧ (updateServices prep readFile pem p services).2.isSome = true := by
  unfold updateServices
  cases hp : prep services with
  | error e => exact ⟨rfl, rfl⟩
  | ok u =>
    obtain ⟨e, he⟩ :=
      certPoolAux_error_of_bad readFile pem services h []
    rw [show certPool readFile pem services =
      certPoolAux readFile pem [] services from rfl, he]
    exact ⟨rfl, rfl⟩

/-- prepareServices always succeeding (its internals are outside src/). -/
def prepOk : List Service → Except String Unit := fun _ => .ok ()

/-- A file system on which every read fails. -/
def fsBad : String → Except String String :=
  fun path => .error ("open " ++ path ++ ": no such file or directory")

/-- A PEM decoder accepting any contents. -/
def pemAll : String → Bool := fun _ => true

/-- svcPaid with a configured certificate path. -/
def svcCert : Service := { svcPaid with TLSCertPath := "cert.pem" }

/-- C8 witness: reconciling onto a service with an unreadable cert file
errors out and leaves the proxy exactly as it was. -/
theorem updateServices_no_partial_swap_check :
    (updateServices prepOk fsBad pemAll (mkProxy [svcPaid] authNo)
      [svcCert]).1 = mkProxy [svcPaid] authNo
    ∧ (updateServices prepOk fsBad pemAll (mkProxy [svcPaid] authNo)
        [svcCert]).2.isSome = true := by
  exact updateServices_no_partial_swap prepOk fsBad pemAll
    (mkProxy [svcPaid] authNo) [svcCert]
    ⟨svcCert, List.mem_cons_self svcCert [], rfl⟩

/-- An old and a new backend service with distinct hosts, and a request
addressed to the new one. -/
def svcOld : Service :=
  { svcPaid with Name := "oldsvc", HostRegexp := "old.example" }

def svcNew : Service :=
  { svcPaid with Name := "newsvc", HostRegexp := "new.example" }

def reqNew : Request :=
  { Method := "GET", Host := "new.example", Path := "/data",
    Header := [], RemoteIP := "8.8.8.8" }

/-- C7: a successful UpdateServices with a new service list does NOT
make subsequent requests match against the new list — the source never
reassigns `p.services`, so a request only the new service matches is
still matched against the old list and falls through to the static
handler even though the new service matches it. -/
theorem updateServices_stale_routing :
    (updateServices prepOk fsBad pemAll (mkProxy [svcOld] authYes)
      [svcNew]).2 = none
    ∧ ((updateServices prepOk fsBad pemAll (mkProxy [svcOld] authYes)
        [svcNew]).1).services = [svcOld]
    ∧ (serveHTTP engLit
        ((updateServices prepOk fsBad pemAll (mkProxy [svcOld] authYes)
          [svcNew]).1) reqNew).outcome = .static
    ∧ serviceMatchesSpec engLit reqNew svcNew = true := by
  exact ⟨rfl, rfl, rfl, rfl⟩

/-- C9: the 402 challenge response delivered to the client does NOT
carry the cross-origin headers — handlePaymentRequired adds them to the
inbound request object instead of the response writer — while it does
carry the challenge header; shown by a concrete anonymous request to
the paid service. -/
theorem challenge_missing_cors :
    ((serveHTTP engLit (mkProxy [svcPaid] authNo)
        reqPaid).outcome.response?.map
      (fun r => (r.status, hGet r.headers "Access-Control-Allow-Origin",
        hGet r.headers "WWW-Authenticate"))) =
      some (402, [], ["LSAT macaroon=MDAx, invoice=lnbc10"]) := by
  rfl

end Aperture
